import Mathlib

/-!
Shallow embedding of the MeadTUI interactive form/navigation core.

The program is a Rust terminal application; the parts relevant to the
verified properties are:
  * `src/widgets/input_field.rs` — the text input editor (`InputField`);
  * `src/models.rs` — the record types and the status / ingredient enums;
  * `src/views/{main_menu,mead_list,new_mead,mead_detail}.rs` — the four
    screen states with their field-navigation controllers;
  * `src/app.rs` — the application state and per-view key handlers.

Modelling conventions:
  * Rust `String` values that participate in editing are modelled as
    `List Char`; `String::len` and the byte-indexed `String::insert` /
    `String::remove` are modelled through `Char.utf8Size`, so that the
    byte-indexed cursor of the source is represented exactly.
  * Operations that can panic in Rust (inserting or removing at an index
    that is not a UTF-8 character boundary, or out of range) return
    `Option`, with `none` for the panic.
  * `f64` values are never computed with, only parsed, defaulted and
    copied; they are modelled as the literal text that denotes them
    (`F64`).  Rust's `str::parse::<f64>` acceptance grammar (documented in
    the standard library) is transcribed as `floatTokenOk`.
  * Timestamps are opaque (`DateTime` carries only the formatted date that
    the program ever stores); the clock and the database are passed as an
    explicit environment `Env`, the database being a pure oracle of call
    results, which is faithful for the single-call-per-keystroke handlers.
-/

/-- An `f64` value, identified by the decimal text that produced it.  The
program only parses, defaults and copies these values, so the textual
representation is a faithful abstraction. -/
structure F64 where
  repr : List Char
deriving DecidableEq

/-- The `f64` denoted by a Rust literal. -/
def f64lit (s : String) : F64 := ⟨s.toList⟩

/-- An instant, reduced to the `%Y-%m-%d` rendering the program stores. -/
structure DateTime where
  ymd : List Char
deriving DecidableEq

/-- Byte length of a string, as Rust's `String::len` computes it. -/
def strBytes (l : List Char) : Nat := l.foldr (fun c n => c.utf8Size + n) 0

/-- Rust `String::insert self idx ch`: inserts at byte index `idx`;
`none` models the panic when `idx` is past the end or not on a character
boundary. -/
def insertAtByte (c : Char) : List Char → Nat → Option (List Char)
  | l, 0 => some (c :: l)
  | [], _ + 1 => none
  | x :: xs, i + 1 =>
    if i + 1 < x.utf8Size then none
    else (insertAtByte c xs (i + 1 - x.utf8Size)).map (fun t => x :: t)

/-- Rust `String::remove self idx`: removes the character starting at byte
index `idx`; `none` models the panic when `idx` is at or past the end or
not on a character boundary. -/
def removeAtByte : List Char → Nat → Option (List Char)
  | [], _ => none
  | _ :: xs, 0 => some xs
  | x :: xs, i + 1 =>
    if i + 1 < x.utf8Size then none
    else (removeAtByte xs (i + 1 - x.utf8Size)).map (fun t => x :: t)

/-- Strip one leading sign character, the first step of Rust's float
grammar `Sign?`. -/
def stripSign : List Char → List Char
  | [] => []
  | c :: r => if c = '+' || c = '-' then r else c :: r

/-- Lower-case a character list (for the case-insensitive special float
tokens). -/
def lowerChars (s : List Char) : List Char := s.map Char.toLower

/-- Acceptance of the optional exponent suffix of Rust's float grammar:
empty, or `e`/`E`, an optional sign, and at least one digit. -/
def expTail (r : List Char) : Bool :=
  match r with
  | [] => true
  | c :: rest =>
    (c = 'e' || c = 'E') &&
      (let d := stripSign rest
       !d.isEmpty && d.all Char.isDigit)

/-- Acceptance of the `Number` production of Rust's float grammar:
`Digits '.' Digits? Exp?`, `Digits Exp?` or `'.' Digits Exp?`. -/
def numTail (s : List Char) : Bool :=
  let d1 := s.takeWhile Char.isDigit
  match s.dropWhile Char.isDigit with
  | [] => !d1.isEmpty
  | x :: r2 =>
    if x = '.' then
      let d2 := r2.takeWhile Char.isDigit
      (!d1.isEmpty || !d2.isEmpty) && expTail (r2.dropWhile Char.isDigit)
    else !d1.isEmpty && expTail (x :: r2)

/-- Acceptance of Rust's `str::parse::<f64>` grammar:
`Sign? ( 'inf' | 'infinity' | 'nan' | Number )`, the special tokens being
case-insensitive. -/
def floatTokenOk (s : List Char) : Bool :=
  let b := stripSign s
  lowerChars b = "inf".toList || lowerChars b = "infinity".toList ||
    lowerChars b = "nan".toList || numTail b

/-- A text input field widget (`InputField` in `input_field.rs`).  `value`
is the UTF-8 buffer, `cursor` the byte-indexed position used by the Rust
`String` operations. -/
structure InputField where
  label : String
  value : List Char
  cursor : Nat
  focused : Bool
  placeholder : String
deriving DecidableEq

/-- `InputField::new`. -/
def InputField.new (label : String) : InputField :=
  { label := label, value := [], cursor := 0, focused := false, placeholder := "" }

/-- `InputField::with_value`: sets the value and puts the cursor at
`value.len()` (bytes). -/
def InputField.with_value (f : InputField) (v : List Char) : InputField :=
  { f with value := v, cursor := strBytes v }

/-- `InputField::with_placeholder`. -/
def InputField.with_placeholder (f : InputField) (p : String) : InputField :=
  { f with placeholder := p }

/-- `InputField::insert_char`: `value.insert(cursor, c); cursor += 1`. -/
def InputField.insert_char (f : InputField) (c : Char) : Option InputField :=
  (insertAtByte c f.value f.cursor).map fun v => { f with value := v, cursor := f.cursor + 1 }

/-- `InputField::delete_char` (backspace): if `cursor > 0`, decrement the
cursor and remove the character at the new cursor. -/
def InputField.delete_char (f : InputField) : Option InputField :=
  if f.cursor > 0 then
    (removeAtByte f.value (f.cursor - 1)).map fun v => { f with cursor := f.cursor - 1, value := v }
  else some f

/-- `InputField::delete_char_forward` (delete key). -/
def InputField.delete_char_forward (f : InputField) : Option InputField :=
  if f.cursor < strBytes f.value then
    (removeAtByte f.value f.cursor).map fun v => { f with value := v }
  else some f

/-- `InputField::move_cursor_left`. -/
def InputField.move_cursor_left (f : InputField) : InputField :=
  if f.cursor > 0 then { f with cursor := f.cursor - 1 } else f

/-- `InputField::move_cursor_right`. -/
def InputField.move_cursor_right (f : InputField) : InputField :=
  if f.cursor < strBytes f.value then { f with cursor := f.cursor + 1 } else f

/-- `InputField::move_cursor_start`. -/
def InputField.move_cursor_start (f : InputField) : InputField := { f with cursor := 0 }

/-- `InputField::move_cursor_end`. -/
def InputField.move_cursor_end (f : InputField) : InputField :=
  { f with cursor := strBytes f.value }

/-- `InputField::clear`. -/
def InputField.clear (f : InputField) : InputField := { f with value := [], cursor := 0 }

/-- `InputField::get_value`. -/
def InputField.get_value (f : InputField) : List Char := f.value

/-- `InputField::set_value`: sets the value and puts the cursor at
`value.len()` (bytes). -/
def InputField.set_value (f : InputField) (v : List Char) : InputField :=
  { f with value := v, cursor := strBytes v }

/-- `InputField::get_f64`: `self.value.parse().ok()`. -/
def InputField.get_f64 (f : InputField) : Option F64 :=
  if floatTokenOk f.value then some ⟨f.value⟩ else none

/-- `InputField::set_focused`. -/
def InputField.set_focused (f : InputField) (b : Bool) : InputField := { f with focused := b }

/-- The text-editor operations of the Text Input Editor, as enumerated by
the cursor-bound invariant. -/
inductive EditOp where
  | insert (c : Char)
  | deleteBack
  | deleteFwd
  | left
  | right
  | toStart
  | toEnd
  | clearAll
  | setVal (v : List Char)
  | withVal (v : List Char)
deriving DecidableEq

/-- Apply one editor operation; `none` is a Rust panic. -/
def applyEditOp (f : InputField) : EditOp → Option InputField
  | .insert c => f.insert_char c
  | .deleteBack => f.delete_char
  | .deleteFwd => f.delete_char_forward
  | .left => some f.move_cursor_left
  | .right => some f.move_cursor_right
  | .toStart => some f.move_cursor_start
  | .toEnd => some f.move_cursor_end
  | .clearAll => some f.clear
  | .setVal v => some (f.set_value v)
  | .withVal v => some (f.with_value v)

/-- Run a sequence of editor operations. -/
def runEditOps (s : Option InputField) (ops : List EditOp) : Option InputField :=
  ops.foldl (fun acc op => acc.bind (fun f => applyEditOp f op)) s

/-- `MeadStatus` (`models.rs`). -/
inductive MeadStatus where
  | Planning
  | Primary
  | Secondary
  | Aging
  | Bottled
  | Finished
deriving DecidableEq

/-- `MeadStatus::next`. -/
def MeadStatus.next : MeadStatus → MeadStatus
  | .Planning => .Primary
  | .Primary => .Secondary
  | .Secondary => .Aging
  | .Aging => .Bottled
  | .Bottled => .Finished
  | .Finished => .Planning

/-- `MeadStatus::prev`. -/
def MeadStatus.prev : MeadStatus → MeadStatus
  | .Planning => .Finished
  | .Primary => .Planning
  | .Secondary => .Primary
  | .Aging => .Secondary
  | .Bottled => .Aging
  | .Finished => .Bottled

/-- `IngredientType` (`models.rs`). -/
inductive IngredientType where
  | Fruit
  | Spice
  | Nutrient
  | Adjunct
  | Other
deriving DecidableEq

/-- `Mead` (`models.rs`). -/
structure Mead where
  id : Int
  name : List Char
  start_date : List Char
  honey_type : List Char
  honey_amount_lbs : F64
  yeast_strain : List Char
  target_abv : F64
  starting_gravity : F64
  current_gravity : F64
  yan_required : F64
  yan_added : F64
  volume_gallons : F64
  status : MeadStatus
  notes : List Char
  created_at : DateTime
  updated_at : DateTime
deriving DecidableEq

/-- `Default for Mead`; `now` is the wall clock read by `Utc::now()`. -/
def Mead.default (now : DateTime) : Mead where
  id := 0
  name := []
  start_date := now.ymd
  honey_type := []
  honey_amount_lbs := f64lit "0.0"
  yeast_strain := []
  target_abv := f64lit "14.0"
  starting_gravity := f64lit "1.100"
  current_gravity := f64lit "1.100"
  yan_required := f64lit "0.0"
  yan_added := f64lit "0.0"
  volume_gallons := f64lit "1.0"
  status := .Planning
  notes := []
  created_at := now
  updated_at := now

/-- `Ingredient` (`models.rs`). -/
structure Ingredient where
  id : Int
  mead_id : Int
  ingredient_type : IngredientType
  name : List Char
  amount : F64
  unit : List Char
  added_date : List Char
deriving DecidableEq

/-- `Default for Ingredient`. -/
def Ingredient.default (now : DateTime) : Ingredient where
  id := 0
  mead_id := 0
  ingredient_type := .Other
  name := []
  amount := f64lit "0.0"
  unit := "oz".toList
  added_date := now.ymd

/-- `LogEntry` (`models.rs`). -/
structure LogEntry where
  id : Int
  mead_id : Int
  timestamp : DateTime
  entry_text : List Char
deriving DecidableEq

/-- `Default for LogEntry`. -/
def LogEntry.default (now : DateTime) : LogEntry where
  id := 0
  mead_id := 0
  timestamp := now
  entry_text := []

/-- `MainMenuView` (`main_menu.rs`). -/
structure MainMenuView where
  selected : Nat
  options : List (List Char)
deriving DecidableEq

/-- `MainMenuView::new`. -/
def MainMenuView.new : MainMenuView :=
  { selected := 0, options := ["Current Meads".toList, "New Mead".toList] }

/-- `MainMenuView::next`. -/
def MainMenuView.next (m : MainMenuView) : MainMenuView :=
  { m with selected := (m.selected + 1) % m.options.length }

/-- `MainMenuView::previous`. -/
def MainMenuView.previous (m : MainMenuView) : MainMenuView :=
  if m.selected = 0 then { m with selected := m.options.length - 1 }
  else { m with selected := m.selected - 1 }

/-- `MeadListView` (`mead_list.rs`). -/
structure MeadListView where
  meads : List Mead
  selected : Nat
  needs_refresh : Bool
deriving DecidableEq

/-- `MeadListView::new`. -/
def MeadListView.new : MeadListView :=
  { meads := [], selected := 0, needs_refresh := true }

/-- `MeadListView::set_meads`. -/
def MeadListView.set_meads (v : MeadListView) (meads : List Mead) : MeadListView :=
  let v := { v with meads := meads, needs_refresh := false }
  if v.selected ≥ v.meads.length && !v.meads.isEmpty then
    { v with selected := v.meads.length - 1 }
  else v

/-- `MeadListView::next`. -/
def MeadListView.next (v : MeadListView) : MeadListView :=
  if !v.meads.isEmpty then { v with selected := (v.selected + 1) % v.meads.length } else v

/-- `MeadListView::previous`. -/
def MeadListView.previous (v : MeadListView) : MeadListView :=
  if !v.meads.isEmpty then
    if v.selected = 0 then { v with selected := v.meads.length - 1 }
    else { v with selected := v.selected - 1 }
  else v

/-- `MeadListView::get_selected`. -/
def MeadListView.get_selected (v : MeadListView) : Option Mead :=
  v.meads.get? v.selected

/-- `NewMeadField` (`new_mead.rs`). -/
inductive NewMeadField where
  | Name
  | StartDate
  | HoneyType
  | HoneyAmount
  | YeastStrain
  | TargetAbv
  | StartingGravity
  | VolumeGallons
  | YanRequired
  | Notes
  | Submit
deriving DecidableEq

/-- `NewMeadField::from_index`. -/
def NewMeadField.from_index (i : Nat) : NewMeadField :=
  match i with
  | 0 => .Name
  | 1 => .StartDate
  | 2 => .HoneyType
  | 3 => .HoneyAmount
  | 4 => .YeastStrain
  | 5 => .TargetAbv
  | 6 => .StartingGravity
  | 7 => .VolumeGallons
  | 8 => .YanRequired
  | 9 => .Notes
  | _ => .Submit

/-- `NewMeadField::count`. -/
def NewMeadField.count : Nat := 11

/-- `NewMeadView` (`new_mead.rs`). -/
structure NewMeadView where
  name : InputField
  start_date : InputField
  honey_type : InputField
  honey_amount : InputField
  yeast_strain : InputField
  target_abv : InputField
  starting_gravity : InputField
  volume_gallons : InputField
  yan_required : InputField
  notes : InputField
  current_field : Nat
  editing : Bool
deriving DecidableEq

/-- `NewMeadView::new`; `today` is `Utc::now().format("%Y-%m-%d")`. -/
def NewMeadView.new (today : List Char) : NewMeadView where
  name := (InputField.new "Name").with_placeholder "My First Mead"
  start_date := (InputField.new "Start Date").with_value today
  honey_type := (InputField.new "Honey Type").with_placeholder "Wildflower, Clover, etc."
  honey_amount := (InputField.new "Honey (lbs)").with_value "3.0".toList
  yeast_strain := (InputField.new "Yeast Strain").with_placeholder "Lalvin 71B, D47, etc."
  target_abv := (InputField.new "Target ABV %").with_value "14.0".toList
  starting_gravity := (InputField.new "Starting Gravity").with_value "1.100".toList
  volume_gallons := (InputField.new "Volume (gallons)").with_value "1.0".toList
  yan_required := (InputField.new "YAN Required (ppm)").with_value "200".toList
  notes := (InputField.new "Notes").with_placeholder "Any additional notes..."
  current_field := 0
  editing := false

/-- `NewMeadView::set_field_focus`. -/
def NewMeadView.set_field_focus (v : NewMeadView) (b : Bool) : NewMeadView :=
  match NewMeadField.from_index v.current_field with
  | .Name => { v with name := v.name.set_focused b }
  | .StartDate => { v with start_date := v.start_date.set_focused b }
  | .HoneyType => { v with honey_type := v.honey_type.set_focused b }
  | .HoneyAmount => { v with honey_amount := v.honey_amount.set_focused b }
  | .YeastStrain => { v with yeast_strain := v.yeast_strain.set_focused b }
  | .TargetAbv => { v with target_abv := v.target_abv.set_focused b }
  | .StartingGravity => { v with starting_gravity := v.starting_gravity.set_focused b }
  | .VolumeGallons => { v with volume_gallons := v.volume_gallons.set_focused b }
  | .YanRequired => { v with yan_required := v.yan_required.set_focused b }
  | .Notes => { v with notes := v.notes.set_focused b }
  | .Submit => v

/-- `NewMeadView::next_field`. -/
def NewMeadView.next_field (v : NewMeadView) : NewMeadView :=
  let v := v.set_field_focus false
  let v := { v with editing := false }
  let v := { v with current_field := (v.current_field + 1) % NewMeadField.count }
  v.set_field_focus true

/-- `NewMeadView::previous_field`. -/
def NewMeadView.previous_field (v : NewMeadView) : NewMeadView :=
  let v := v.set_field_focus false
  let v := { v with editing := false }
  let v :=
    if v.current_field = 0 then { v with current_field := NewMeadField.count - 1 }
    else { v with current_field := v.current_field - 1 }
  v.set_field_focus true

/-- `NewMeadView::get_current_field_mut` followed by a pure editor
operation on the selected field (no field on the submit slot). -/
def NewMeadView.mapCurrent (v : NewMeadView) (g : InputField → InputField) : NewMeadView :=
  match NewMeadField.from_index v.current_field with
  | .Name => { v with name := g v.name }
  | .StartDate => { v with start_date := g v.start_date }
  | .HoneyType => { v with honey_type := g v.honey_type }
  | .HoneyAmount => { v with honey_amount := g v.honey_amount }
  | .YeastStrain => { v with yeast_strain := g v.yeast_strain }
  | .TargetAbv => { v with target_abv := g v.target_abv }
  | .StartingGravity => { v with starting_gravity := g v.starting_gravity }
  | .VolumeGallons => { v with volume_gallons := g v.volume_gallons }
  | .YanRequired => { v with yan_required := g v.yan_required }
  | .Notes => { v with notes := g v.notes }
  | .Submit => v

/-- `NewMeadView::get_current_field_mut` followed by a fallible editor
operation on the selected field. -/
def NewMeadView.mapCurrentO (v : NewMeadView) (g : InputField → Option InputField) :
    Option NewMeadView :=
  match NewMeadField.from_index v.current_field with
  | .Name => (g v.name).map fun f => { v with name := f }
  | .StartDate => (g v.start_date).map fun f => { v with start_date := f }
  | .HoneyType => (g v.honey_type).map fun f => { v with honey_type := f }
  | .HoneyAmount => (g v.honey_amount).map fun f => { v with honey_amount := f }
  | .YeastStrain => (g v.yeast_strain).map fun f => { v with yeast_strain := f }
  | .TargetAbv => (g v.target_abv).map fun f => { v with target_abv := f }
  | .StartingGravity => (g v.starting_gravity).map fun f => { v with starting_gravity := f }
  | .VolumeGallons => (g v.volume_gallons).map fun f => { v with volume_gallons := f }
  | .YanRequired => (g v.yan_required).map fun f => { v with yan_required := f }
  | .Notes => (g v.notes).map fun f => { v with notes := f }
  | .Submit => some v

/-- `NewMeadView::is_editing`. -/
def NewMeadView.is_editing (v : NewMeadView) : Bool := v.editing

/-- `NewMeadView::is_on_submit`. -/
def NewMeadView.is_on_submit (v : NewMeadView) : Bool :=
  NewMeadField.from_index v.current_field = .Submit

/-- `NewMeadView::toggle_edit`. -/
def NewMeadView.toggle_edit (v : NewMeadView) : NewMeadView :=
  if !v.is_on_submit then { v with editing := !v.editing } else v

/-- `NewMeadView::cancel_edit`. -/
def NewMeadView.cancel_edit (v : NewMeadView) : NewMeadView := { v with editing := false }

/-- `NewMeadView::insert_char`. -/
def NewMeadView.insert_char (v : NewMeadView) (c : Char) : Option NewMeadView :=
  v.mapCurrentO (fun f => f.insert_char c)

/-- `NewMeadView::delete_char`. -/
def NewMeadView.delete_char (v : NewMeadView) : Option NewMeadView :=
  v.mapCurrentO InputField.delete_char

/-- `NewMeadView::delete_char_forward`. -/
def NewMeadView.delete_char_forward (v : NewMeadView) : Option NewMeadView :=
  v.mapCurrentO InputField.delete_char_forward

/-- `NewMeadView::move_cursor_left`. -/
def NewMeadView.move_cursor_left (v : NewMeadView) : NewMeadView :=
  v.mapCurrent InputField.move_cursor_left

/-- `NewMeadView::move_cursor_right`. -/
def NewMeadView.move_cursor_right (v : NewMeadView) : NewMeadView :=
  v.mapCurrent InputField.move_cursor_right

/-- `NewMeadView::move_cursor_start`. -/
def NewMeadView.move_cursor_start (v : NewMeadView) : NewMeadView :=
  v.mapCurrent InputField.move_cursor_start

/-- `NewMeadView::move_cursor_end`. -/
def NewMeadView.move_cursor_end (v : NewMeadView) : NewMeadView :=
  v.mapCurrent InputField.move_cursor_end

/-- `NewMeadView::build_mead`; `now` is the wall clock read inside
`Default::default()`. -/
def NewMeadView.build_mead (v : NewMeadView) (now : DateTime) : Mead :=
  { Mead.default now with
    name := v.name.get_value
    start_date := v.start_date.get_value
    honey_type := v.honey_type.get_value
    honey_amount_lbs := (v.honey_amount.get_f64).getD (f64lit "0.0")
    yeast_strain := v.yeast_strain.get_value
    target_abv := (v.target_abv.get_f64).getD (f64lit "14.0")
    starting_gravity := (v.starting_gravity.get_f64).getD (f64lit "1.100")
    current_gravity := (v.starting_gravity.get_f64).getD (f64lit "1.100")
    volume_gallons := (v.volume_gallons.get_f64).getD (f64lit "1.0")
    yan_required := (v.yan_required.get_f64).getD (f64lit "0.0")
    yan_added := f64lit "0.0"
    status := .Primary
    notes := v.notes.get_value }

/-- `DetailField` (`mead_detail.rs`). -/
inductive DetailField where
  | Name
  | Status
  | CurrentGravity
  | YanAdded
  | Notes
deriving DecidableEq

/-- `DetailField::from_index`. -/
def DetailField.from_index (i : Nat) : DetailField :=
  match i with
  | 0 => .Name
  | 1 => .Status
  | 2 => .CurrentGravity
  | 3 => .YanAdded
  | _ => .Notes

/-- `DetailField::count`. -/
def DetailField.count : Nat := 5

/-- `MeadDetailView` (`mead_detail.rs`). -/
structure MeadDetailView where
  mead : Option Mead
  ingredients : List Ingredient
  log_entries : List LogEntry
  needs_refresh : Bool
  current_field : Nat
  editing : Bool
  name_input : InputField
  current_gravity_input : InputField
  yan_added_input : InputField
  notes_input : InputField
  current_status : MeadStatus
  log_input : InputField
  show_log_input : Bool
  ingredient_name_input : InputField
  ingredient_amount_input : InputField
  ingredient_unit_input : InputField
  selected_ingredient_type : IngredientType
  show_ingredient_input : Bool
  ingredient_field : Nat
deriving DecidableEq

/-- `MeadDetailView::new`. -/
def MeadDetailView.new : MeadDetailView where
  mead := none
  ingredients := []
  log_entries := []
  needs_refresh := true
  current_field := 0
  editing := false
  name_input := InputField.new "Name"
  current_gravity_input := InputField.new "Current Gravity"
  yan_added_input := InputField.new "YAN Added"
  notes_input := InputField.new "Notes"
  current_status := .Planning
  log_input := InputField.new "Log Entry"
  show_log_input := false
  ingredient_name_input := InputField.new "Ingredient Name"
  ingredient_amount_input := InputField.new "Amount"
  ingredient_unit_input := (InputField.new "Unit").with_value "oz".toList
  selected_ingredient_type := .Fruit
  show_ingredient_input := false
  ingredient_field := 0

/-- `MeadDetailView::update_ingredient_focus`. -/
def MeadDetailView.update_ingredient_focus (v : MeadDetailView) : MeadDetailView :=
  { v with
    ingredient_name_input := v.ingredient_name_input.set_focused (v.ingredient_field == 0)
    ingredient_amount_input := v.ingredient_amount_input.set_focused (v.ingredient_field == 1)
    ingredient_unit_input := v.ingredient_unit_input.set_focused (v.ingredient_field == 2) }

/-- `MeadDetailView::set_field_focus`. -/
def MeadDetailView.set_field_focus (v : MeadDetailView) (b : Bool) : MeadDetailView :=
  match DetailField.from_index v.current_field with
  | .Name => { v with name_input := v.name_input.set_focused b }
  | .Status => v
  | .CurrentGravity => { v with current_gravity_input := v.current_gravity_input.set_focused b }
  | .YanAdded => { v with yan_added_input := v.yan_added_input.set_focused b }
  | .Notes => { v with notes_input := v.notes_input.set_focused b }

/-- `MeadDetailView::next_field`. -/
def MeadDetailView.next_field (v : MeadDetailView) : MeadDetailView :=
  if v.show_log_input then v
  else if v.show_ingredient_input then
    ({ v with ingredient_field := (v.ingredient_field + 1) % 4 }).update_ingredient_focus
  else
    let v := v.set_field_focus false
    let v := { v with editing := false }
    let v := { v with current_field := (v.current_field + 1) % DetailField.count }
    v.set_field_focus true

/-- `MeadDetailView::previous_field`. -/
def MeadDetailView.previous_field (v : MeadDetailView) : MeadDetailView :=
  if v.show_log_input then v
  else if v.show_ingredient_input then
    (if v.ingredient_field = 0 then { v with ingredient_field := 3 }
     else { v with ingredient_field := v.ingredient_field - 1 }).update_ingredient_focus
  else
    let v := v.set_field_focus false
    let v := { v with editing := false }
    let v :=
      if v.current_field = 0 then { v with current_field := DetailField.count - 1 }
      else { v with current_field := v.current_field - 1 }
    v.set_field_focus true

/-- `MeadDetailView::get_current_field_mut` followed by a pure editor
operation on the selected field (the status and category slots carry no
editor). -/
def MeadDetailView.mapCurrent (v : MeadDetailView) (g : InputField → InputField) :
    MeadDetailView :=
  if v.show_log_input then { v with log_input := g v.log_input }
  else if v.show_ingredient_input then
    match v.ingredient_field with
    | 0 => { v with ingredient_name_input := g v.ingredient_name_input }
    | 1 => { v with ingredient_amount_input := g v.ingredient_amount_input }
    | 2 => { v with ingredient_unit_input := g v.ingredient_unit_input }
    | _ => v
  else
    match DetailField.from_index v.current_field with
    | .Name => { v with name_input := g v.name_input }
    | .Status => v
    | .CurrentGravity => { v with current_gravity_input := g v.current_gravity_input }
    | .YanAdded => { v with yan_added_input := g v.yan_added_input }
    | .Notes => { v with notes_input := g v.notes_input }

/-- `MeadDetailView::get_current_field_mut` followed by a fallible editor
operation on the selected field. -/
def MeadDetailView.mapCurrentO (v : MeadDetailView) (g : InputField → Option InputField) :
    Option MeadDetailView :=
  if v.show_log_input then (g v.log_input).map fun f => { v with log_input := f }
  else if v.show_ingredient_input then
    match v.ingredient_field with
    | 0 => (g v.ingredient_name_input).map fun f => { v with ingredient_name_input := f }
    | 1 => (g v.ingredient_amount_input).map fun f => { v with ingredient_amount_input := f }
    | 2 => (g v.ingredient_unit_input).map fun f => { v with ingredient_unit_input := f }
    | _ => some v
  else
    match DetailField.from_index v.current_field with
    | .Name => (g v.name_input).map fun f => { v with name_input := f }
    | .Status => some v
    | .CurrentGravity => (g v.current_gravity_input).map fun f =>
        { v with current_gravity_input := f }
    | .YanAdded => (g v.yan_added_input).map fun f => { v with yan_added_input := f }
    | .Notes => (g v.notes_input).map fun f => { v with notes_input := f }

/-- `MeadDetailView::is_editing`. -/
def MeadDetailView.is_editing (v : MeadDetailView) : Bool := v.editing

/-- `MeadDetailView::toggle_edit`: on the status slot this cycles the
status instead of toggling the editing flag. -/
def MeadDetailView.toggle_edit (v : MeadDetailView) : MeadDetailView :=
  if DetailField.from_index v.current_field = .Status then
    { v with current_status := v.current_status.next }
  else { v with editing := !v.editing }

/-- `MeadDetailView::cancel_edit`. -/
def MeadDetailView.cancel_edit (v : MeadDetailView) : MeadDetailView := { v with editing := false }

/-- `MeadDetailView::insert_char`. -/
def MeadDetailView.insert_char (v : MeadDetailView) (c : Char) : Option MeadDetailView :=
  if v.show_ingredient_input && v.ingredient_field == 3 then some v
  else v.mapCurrentO (fun f => f.insert_char c)

/-- `MeadDetailView::delete_char`. -/
def MeadDetailView.delete_char (v : MeadDetailView) : Option MeadDetailView :=
  v.mapCurrentO InputField.delete_char

/-- `MeadDetailView::delete_char_forward`. -/
def MeadDetailView.delete_char_forward (v : MeadDetailView) : Option MeadDetailView :=
  v.mapCurrentO InputField.delete_char_forward

/-- The backward cycle of the ingredient category written inline in
`MeadDetailView::move_cursor_left`. -/
def ingredientTypeBackward : IngredientType → IngredientType
  | .Fruit => .Other
  | .Spice => .Fruit
  | .Nutrient => .Spice
  | .Adjunct => .Nutrient
  | .Other => .Adjunct

/-- The forward cycle of the ingredient category written inline in
`MeadDetailView::move_cursor_right`. -/
def ingredientTypeForward : IngredientType → IngredientType
  | .Fruit => .Spice
  | .Spice => .Nutrient
  | .Nutrient => .Adjunct
  | .Adjunct => .Other
  | .Other => .Fruit

/-- `MeadDetailView::move_cursor_left`: on the category slot this cycles
the ingredient type backward. -/
def MeadDetailView.move_cursor_left (v : MeadDetailView) : MeadDetailView :=
  if v.show_ingredient_input && v.ingredient_field == 3 then
    { v with selected_ingredient_type := ingredientTypeBackward v.selected_ingredient_type }
  else v.mapCurrent InputField.move_cursor_left

/-- `MeadDetailView::move_cursor_right`: on the category slot this cycles
the ingredient type forward. -/
def MeadDetailView.move_cursor_right (v : MeadDetailView) : MeadDetailView :=
  if v.show_ingredient_input && v.ingredient_field == 3 then
    { v with selected_ingredient_type := ingredientTypeForward v.selected_ingredient_type }
  else v.mapCurrent InputField.move_cursor_right

/-- `MeadDetailView::clear_ingredient_inputs`. -/
def MeadDetailView.clear_ingredient_inputs (v : MeadDetailView) : MeadDetailView :=
  { v with
    ingredient_name_input := v.ingredient_name_input.clear
    ingredient_amount_input := v.ingredient_amount_input.clear
    ingredient_unit_input := v.ingredient_unit_input.set_value "oz".toList
    selected_ingredient_type := .Fruit
    ingredient_field := 0 }

/-- `MeadDetailView::get_updated_mead`. -/
def MeadDetailView.get_updated_mead (v : MeadDetailView) : Option Mead :=
  v.mead.map fun m =>
    { m with
      name := v.name_input.get_value
      current_gravity := (v.current_gravity_input.get_f64).getD m.current_gravity
      yan_added := (v.yan_added_input.get_f64).getD m.yan_added
      notes := v.notes_input.get_value
      status := v.current_status }

/-- `View` (`app.rs`). -/
inductive View where
  | MainMenu
  | MeadList
  | NewMead
  | MeadDetail (id : Int)
deriving DecidableEq

/-- Key codes reaching the handlers (crossterm `KeyCode`; codes the
handlers never name are collapsed into `OtherKey`). -/
inductive KeyCode where
  | Char (c : Char)
  | Enter
  | Esc
  | Tab
  | Backspace
  | Delete
  | Left
  | Right
  | Up
  | Down
  | Home
  | End
  | OtherKey
deriving DecidableEq

/-- A key-press event: the code and whether SHIFT is in the modifier
set. -/
structure KeyEvent where
  code : KeyCode
  shift : Bool
deriving DecidableEq

/-- The database as a pure oracle of call results: each handler performs
at most one call per keystroke, so a result function per operation is a
faithful rendering of the store contract. -/
structure Database where
  create_mead : Mead → Except (List Char) Int
  delete_mead : Int → Except (List Char) Unit
  update_mead : Mead → Except (List Char) Unit
  create_log_entry : LogEntry → Except (List Char) Unit
  create_ingredient : Ingredient → Except (List Char) Unit

/-- Ambient environment of a keystroke: the store oracle and the wall
clock. -/
structure Env where
  db : Database
  now : DateTime

/-- `App` (`app.rs`), minus the terminal handle and the database
connection (moved to `Env`). -/
structure App where
  current_view : View
  should_exit : Bool
  main_menu : MainMenuView
  mead_list : MeadListView
  new_mead : NewMeadView
  mead_detail : MeadDetailView
  status_message : Option (List Char)

/-- `App::handle_main_menu_key`. -/
def App.handle_main_menu_key (env : Env) (app : App) (key : KeyEvent) : Option App :=
  match key.code with
  | .Char c =>
    if c = 'q' then some { app with should_exit := true }
    else if c = 'k' then some { app with main_menu := app.main_menu.previous }
    else if c = 'j' then some { app with main_menu := app.main_menu.next }
    else some app
  | .Up => some { app with main_menu := app.main_menu.previous }
  | .Down => some { app with main_menu := app.main_menu.next }
  | .Enter =>
    match app.main_menu.selected with
    | 0 => some { app with
        mead_list := { app.mead_list with needs_refresh := true }
        current_view := .MeadList }
    | 1 => some { app with
        new_mead := NewMeadView.new env.now.ymd
        current_view := .NewMead }
    | _ => some app
  | _ => some app

/-- `App::handle_mead_list_key`. -/
def App.handle_mead_list_key (env : Env) (app : App) (key : KeyEvent) : Option App :=
  match key.code with
  | .Esc => some { app with current_view := .MainMenu }
  | .Up => some { app with mead_list := app.mead_list.previous }
  | .Down => some { app with mead_list := app.mead_list.next }
  | .Enter =>
    match app.mead_list.get_selected with
    | some mead => some { app with
        mead_detail := { app.mead_detail with needs_refresh := true }
        current_view := .MeadDetail mead.id }
    | none => some app
  | .Char c =>
    if c = 'k' then some { app with mead_list := app.mead_list.previous }
    else if c = 'j' then some { app with mead_list := app.mead_list.next }
    else if c = 'd' then
      match app.mead_list.get_selected with
      | some mead =>
        match env.db.delete_mead mead.id with
        | .ok _ => some { app with
            mead_list := { app.mead_list with needs_refresh := true }
            status_message := some ("Deleted mead: ".toList ++ mead.name) }
        | .error _ => some app
      | none => some app
    else some app
  | _ => some app

/-- `App::handle_new_mead_key`. -/
def App.handle_new_mead_key (env : Env) (app : App) (key : KeyEvent) : Option App :=
  match key.code with
  | .Esc =>
    if app.new_mead.is_editing then some { app with new_mead := app.new_mead.cancel_edit }
    else some { app with current_view := .MainMenu }
  | .Tab =>
    if key.shift then some { app with new_mead := app.new_mead.previous_field }
    else some { app with new_mead := app.new_mead.next_field }
  | .Up =>
    if !app.new_mead.is_editing then some { app with new_mead := app.new_mead.previous_field }
    else some app
  | .Down =>
    if !app.new_mead.is_editing then some { app with new_mead := app.new_mead.next_field }
    else some app
  | .Enter =>
    if app.new_mead.is_on_submit then
      let mead := app.new_mead.build_mead env.now
      match env.db.create_mead mead with
      | .ok _ => some { app with
          status_message := some ("Created mead: ".toList ++ mead.name)
          current_view := .MainMenu }
      | .error e => some { app with status_message := some ("Error: ".toList ++ e) }
    else some { app with new_mead := app.new_mead.next_field }
  | .Char c =>
    if !app.new_mead.is_on_submit then
      let v := if !app.new_mead.is_editing then app.new_mead.toggle_edit else app.new_mead
      (v.insert_char c).map fun v => { app with new_mead := v }
    else some app
  | .Backspace =>
    if !app.new_mead.is_on_submit then
      let v := if !app.new_mead.is_editing then app.new_mead.toggle_edit else app.new_mead
      v.delete_char.map fun v => { app with new_mead := v }
    else some app
  | .Delete =>
    if app.new_mead.is_editing then
      app.new_mead.delete_char_forward.map fun v => { app with new_mead := v }
    else some app
  | .Left =>
    if app.new_mead.is_editing then some { app with new_mead := app.new_mead.move_cursor_left }
    else some app
  | .Right =>
    if app.new_mead.is_editing then some { app with new_mead := app.new_mead.move_cursor_right }
    else some app
  | .Home =>
    if app.new_mead.is_editing then some { app with new_mead := app.new_mead.move_cursor_start }
    else some app
  | .End =>
    if app.new_mead.is_editing then some { app with new_mead := app.new_mead.move_cursor_end }
    else some app
  | _ => some app

/-- `App::handle_mead_detail_key`. -/
def App.handle_mead_detail_key (env : Env) (app : App) (key : KeyEvent) : Option App :=
  let in_input_mode := app.mead_detail.is_editing || app.mead_detail.show_log_input ||
    app.mead_detail.show_ingredient_input
  match key.code with
  | .Esc =>
    if app.mead_detail.is_editing then
      some { app with mead_detail := app.mead_detail.cancel_edit }
    else if app.mead_detail.show_log_input || app.mead_detail.show_ingredient_input then
      some { app with mead_detail :=
        { app.mead_detail with show_log_input := false, show_ingredient_input := false } }
    else
      some { app with
        mead_list := { app.mead_list with needs_refresh := true }
        current_view := .MeadList }
  | .Tab =>
    if key.shift then some { app with mead_detail := app.mead_detail.previous_field }
    else some { app with mead_detail := app.mead_detail.next_field }
  | .Up =>
    if !in_input_mode then some { app with mead_detail := app.mead_detail.previous_field }
    else some app
  | .Down =>
    if !in_input_mode then some { app with mead_detail := app.mead_detail.next_field }
    else some app
  | .Enter =>
    if app.mead_detail.show_log_input then
      match app.mead_detail.mead with
      | some mead =>
        let entry := { LogEntry.default env.now with
          mead_id := mead.id, entry_text := app.mead_detail.log_input.get_value }
        if !entry.entry_text.isEmpty then
          match env.db.create_log_entry entry with
          | .ok _ => some { app with mead_detail :=
              { app.mead_detail with
                log_input := app.mead_detail.log_input.clear
                show_log_input := false
                needs_refresh := true } }
          | .error _ => some app
        else some app
      | none => some app
    else if app.mead_detail.show_ingredient_input then
      match app.mead_detail.mead with
      | some mead =>
        let ingredient := { Ingredient.default env.now with
          mead_id := mead.id
          name := app.mead_detail.ingredient_name_input.get_value
          amount := (app.mead_detail.ingredient_amount_input.get_f64).getD (f64lit "0.0")
          unit := app.mead_detail.ingredient_unit_input.get_value
          ingredient_type := app.mead_detail.selected_ingredient_type }
        if !ingredient.name.isEmpty then
          match env.db.create_ingredient ingredient with
          | .ok _ => some { app with mead_detail :=
              ({ app.mead_detail.clear_ingredient_inputs with
                show_ingredient_input := false
                needs_refresh := true }) }
          | .error _ => some app
        else some app
      | none => some app
    else some { app with mead_detail := app.mead_detail.toggle_edit }
  | .Char c =>
    if c = 'l' && !in_input_mode then
      some { app with mead_detail :=
        { app.mead_detail with
          show_log_input := true
          log_input := app.mead_detail.log_input.set_focused true } }
    else if c = 'i' && !in_input_mode then
      some { app with mead_detail :=
        { app.mead_detail with
          show_ingredient_input := true
          ingredient_name_input := app.mead_detail.ingredient_name_input.set_focused true } }
    else if c = 's' && !in_input_mode then
      match app.mead_detail.get_updated_mead with
      | some mead =>
        match env.db.update_mead mead with
        | .ok _ => some { app with
            status_message := some "Mead updated!".toList
            mead_detail := { app.mead_detail with needs_refresh := true } }
        | .error _ => some app
      | none => some app
    else if app.mead_detail.show_log_input || app.mead_detail.show_ingredient_input then
      (app.mead_detail.insert_char c).map fun v => { app with mead_detail := v }
    else if !in_input_mode then
      let v := app.mead_detail.toggle_edit
      if v.is_editing then
        (v.insert_char c).map fun v => { app with mead_detail := v }
      else some { app with mead_detail := v }
    else
      (app.mead_detail.insert_char c).map fun v => { app with mead_detail := v }
  | .Backspace =>
    if app.mead_detail.show_log_input || app.mead_detail.show_ingredient_input then
      app.mead_detail.delete_char.map fun v => { app with mead_detail := v }
    else if !app.mead_detail.is_editing then
      let v := app.mead_detail.toggle_edit
      if v.is_editing then
        v.delete_char.map fun v => { app with mead_detail := v }
      else some { app with mead_detail := v }
    else
      app.mead_detail.delete_char.map fun v => { app with mead_detail := v }
  | .Delete =>
    if in_input_mode then
      app.mead_detail.delete_char_forward.map fun v => { app with mead_detail := v }
    else some app
  | .Left =>
    if in_input_mode then some { app with mead_detail := app.mead_detail.move_cursor_left }
    else some app
  | .Right =>
    if in_input_mode then some { app with mead_detail := app.mead_detail.move_cursor_right }
    else some app
  | _ => some app

/-- `App::handle_key_event`: clears the status message, then routes the
key to the handler of the active view.  Only key-press events reach this
function (`App::handle_events` filters on `KeyEventKind::Press`). -/
def App.handle_key_event (env : Env) (app : App) (key : KeyEvent) : Option App :=
  let app := { app with status_message := none }
  match app.current_view with
  | .MainMenu => app.handle_main_menu_key env key
  | .MeadList => app.handle_mead_list_key env key
  | .NewMead => app.handle_new_mead_key env key
  | .MeadDetail _ => app.handle_mead_detail_key env key

/-! ### Claim-layer definitions -/

/-- Indicator of a focus flag. -/
def boolNat (b : Bool) : Nat := if b then 1 else 0

/-- Number of focused text editors among the new-record form's ten
editor-backed slots. -/
def NewMeadView.focusCount (v : NewMeadView) : Nat :=
  boolNat v.name.focused + boolNat v.start_date.focused + boolNat v.honey_type.focused +
    boolNat v.honey_amount.focused + boolNat v.yeast_strain.focused +
    boolNat v.target_abv.focused + boolNat v.starting_gravity.focused +
    boolNat v.volume_gallons.focused + boolNat v.yan_required.focused +
    boolNat v.notes.focused

/-- A focused editor of the new-record form is the one at the current
slot. -/
def NewMeadView.focusInv (v : NewMeadView) : Prop :=
  (v.name.focused = true → v.current_field = 0) ∧
  (v.start_date.focused = true → v.current_field = 1) ∧
  (v.honey_type.focused = true → v.current_field = 2) ∧
  (v.honey_amount.focused = true → v.current_field = 3) ∧
  (v.yeast_strain.focused = true → v.current_field = 4) ∧
  (v.target_abv.focused = true → v.current_field = 5) ∧
  (v.starting_gravity.focused = true → v.current_field = 6) ∧
  (v.volume_gallons.focused = true → v.current_field = 7) ∧
  (v.yan_required.focused = true → v.current_field = 8) ∧
  (v.notes.focused = true → v.current_field = 9)

/-- Number of focused text editors among the detail form's four
editor-backed slots. -/
def MeadDetailView.focusCount (v : MeadDetailView) : Nat :=
  boolNat v.name_input.focused + boolNat v.current_gravity_input.focused +
    boolNat v.yan_added_input.focused + boolNat v.notes_input.focused

/-- A focused editor of the detail form is the one at the current slot. -/
def MeadDetailView.focusInv (v : MeadDetailView) : Prop :=
  (v.name_input.focused = true → v.current_field = 0) ∧
  (v.current_gravity_input.focused = true → v.current_field = 2) ∧
  (v.yan_added_input.focused = true → v.current_field = 3) ∧
  (v.notes_input.focused = true → v.current_field = 4)

/-- Nonempty run of decimal digits (spec-side float grammar). -/
def DigitsStr (l : List Char) : Prop := l ≠ [] ∧ ∀ c ∈ l, c.isDigit

/-- Exponent suffix of the float grammar (spec-side): empty, or `e`/`E`
followed by an optional sign and digits. -/
def ExpStr (e : List Char) : Prop :=
  e = [] ∨ ∃ (c : Char) (sg d : List Char), e = c :: (sg ++ d) ∧ (c = 'e' ∨ c = 'E') ∧
    (sg = [] ∨ sg = ['+'] ∨ sg = ['-']) ∧ DigitsStr d

/-- The `Number` production of the float grammar (spec-side):
a digit string with an optional fractional part, or with a dot on either
side carrying digits, optionally followed by an exponent. -/
def NumberStr (b : List Char) : Prop :=
  (∃ d1 d2 e, b = d1 ++ '.' :: (d2 ++ e) ∧ (∀ c ∈ d1, c.isDigit) ∧ (∀ c ∈ d2, c.isDigit) ∧
    (d1 ≠ [] ∨ d2 ≠ []) ∧ ExpStr e) ∨
  (∃ d1 e, b = d1 ++ e ∧ DigitsStr d1 ∧ ExpStr e)

/-- Body of a float literal after the optional sign (spec-side): one of
the case-insensitive special tokens or a decimal number. -/
def BodyStr (b : List Char) : Prop :=
  lowerChars b = "inf".toList ∨ lowerChars b = "infinity".toList ∨
    lowerChars b = "nan".toList ∨ NumberStr b

/-- Body acceptance on the executable side. -/
def bodyOk (b : List Char) : Bool :=
  lowerChars b = "inf".toList || lowerChars b = "infinity".toList ||
    lowerChars b = "nan".toList || numTail b

/-- A string accepted by the numeric-field parser (spec-side): an optional
sign followed by a decimal number, or one of the case-insensitive special
tokens `inf`, `infinity`, `nan`. -/
def FloatLiteralStr (s : List Char) : Prop :=
  ∃ sg b, s = sg ++ b ∧ (sg = [] ∨ sg = ['+'] ∨ sg = ['-']) ∧ BodyStr b

/-- Store oracle whose calls all succeed (used for concrete runs). -/
def dbAllOk : Database where
  create_mead := fun _ => .ok 1
  delete_mead := fun _ => .ok ()
  update_mead := fun _ => .ok ()
  create_log_entry := fun _ => .ok ()
  create_ingredient := fun _ => .ok ()

/-- Concrete environment for concrete runs. -/
def envFix : Env where
  db := dbAllOk
  now := ⟨"2026-01-01".toList⟩

/-- A concrete application state used as a base point for concrete runs. -/
def appBase : App where
  current_view := .MainMenu
  should_exit := false
  main_menu := MainMenuView.new
  mead_list := MeadListView.new
  new_mead := NewMeadView.new "2026-01-01".toList
  mead_detail := MeadDetailView.new
  status_message := none

/-- A concrete mead record. -/
def meadFix : Mead := { Mead.default ⟨"2026-01-01".toList⟩ with id := 7, name := "Acerglyn".toList }

/-- A concrete application state sitting on the mead list, with a leftover
detail-screen field index from a previous visit. -/
def appListFix : App :=
  { appBase with
    current_view := .MeadList
    mead_list := { MeadListView.new with meads := [meadFix], selected := 0 }
    mead_detail := { MeadDetailView.new with current_field := 2 } }

/-- A concrete application state on the detail screen with the status slot
current, browsing (no editing, no sub-form). -/
def appStatusFix : App :=
  { appBase with
    current_view := .MeadDetail 7
    mead_detail := { MeadDetailView.new with current_field := 1 } }

/-- A concrete detail view with the ingredient sub-form open on the
category slot. -/
def detailCatFix : MeadDetailView :=
  { MeadDetailView.new with show_ingredient_input := true, ingredient_field := 3 }

/-- A concrete application state on the detail screen with the log-entry
sub-form open and text already typed into it. -/
def appLogFix : App :=
  { appBase with
    current_view := .MeadDetail 7
    mead_detail :=
      { MeadDetailView.new with
        current_field := 3
        show_log_input := true
        log_input := ((InputField.new "Log Entry").with_value "racked".toList).set_focused true } }

/-- A concrete new-record form whose numeric buffers do not parse. -/
def newBadFix : NewMeadView :=
  { NewMeadView.new "2026-01-01".toList with
    honey_amount := (InputField.new "Honey (lbs)").with_value "abc".toList
    target_abv := (InputField.new "Target ABV %").with_value "14%".toList
    starting_gravity := (InputField.new "Starting Gravity").with_value "1.1.0".toList
    volume_gallons := (InputField.new "Volume (gallons)").with_value "".toList
    yan_required := (InputField.new "YAN Required (ppm)").with_value "2e".toList }

/-! ### Byte-length lemmas for the text editor -/

theorem strBytes_nil : strBytes [] = 0 := rfl

theorem strBytes_cons (x : Char) (xs : List Char) :
    strBytes (x :: xs) = x.utf8Size + strBytes xs := rfl

theorem insertAtByte_spec {c : Char} {l : List Char} {i : Nat} {v : List Char}
    (h : insertAtByte c l i = some v) :
    i ≤ strBytes l ∧ strBytes v = c.utf8Size + strBytes l := by
  induction l generalizing i v with
  | nil =>
    cases i with
    | zero =>
      simp only [insertAtByte, Option.some.injEq] at h
      subst h
      simp [strBytes_cons, strBytes_nil]
    | succ n => simp [insertAtByte] at h
  | cons x xs ih =>
    cases i with
    | zero =>
      simp only [insertAtByte, Option.some.injEq] at h
      subst h
      exact ⟨Nat.zero_le _, rfl⟩
    | succ n =>
      simp only [insertAtByte] at h
      split at h
      · exact absurd h (by simp)
      · rename_i hge
        cases hmap : insertAtByte c xs (n + 1 - x.utf8Size) with
        | none => rw [hmap] at h; simp at h
        | some t =>
          rw [hmap] at h
          simp only [Option.map_some', Option.some.injEq] at h
          subst h
          obtain ⟨h1, h2⟩ := ih hmap
          have hx := Nat.le_of_not_lt hge
          constructor
          · rw [strBytes_cons]; omega
          · rw [strBytes_cons, strBytes_cons]; omega

theorem removeAtByte_le {l : List Char} {i : Nat} {v : List Char}
    (h : removeAtByte l i = some v) : i ≤ strBytes v := by
  induction l generalizing i v with
  | nil => simp [removeAtByte] at h
  | cons x xs ih =>
    cases i with
    | zero => exact Nat.zero_le _
    | succ n =>
      simp only [removeAtByte] at h
      split at h
      · exact absurd h (by simp)
      · rename_i hge
        cases hmap : removeAtByte xs (n + 1 - x.utf8Size) with
        | none => rw [hmap] at h; simp at h
        | some t =>
          rw [hmap] at h
          simp only [Option.map_some', Option.some.injEq] at h
          subst h
          have h1 := ih hmap
          have hx := Nat.le_of_not_lt hge
          rw [strBytes_cons]
          omega

theorem applyEditOp_cursor_le {f g : InputField} (op : EditOp)
    (hf : f.cursor ≤ strBytes f.value) (h : applyEditOp f op = some g) :
    g.cursor ≤ strBytes g.value := by
  cases op with
  | insert c =>
    simp only [applyEditOp, InputField.insert_char] at h
    cases hmap : insertAtByte c f.value f.cursor with
    | none => rw [hmap] at h; simp at h
    | some v =>
      rw [hmap] at h
      simp only [Option.map_some', Option.some.injEq] at h
      subst h
      obtain ⟨h1, h2⟩ := insertAtByte_spec hmap
      have := Char.utf8Size_pos c
      simp only
      omega
  | deleteBack =>
    simp only [applyEditOp, InputField.delete_char] at h
    split at h
    · cases hmap : removeAtByte f.value (f.cursor - 1) with
      | none => rw [hmap] at h; simp at h
      | some v =>
        rw [hmap] at h
        simp only [Option.map_some', Option.some.injEq] at h
        subst h
        have := removeAtByte_le hmap
        simp only
        omega
    · simp only [Option.some.injEq] at h
      subst h
      exact hf
  | deleteFwd =>
    simp only [applyEditOp, InputField.delete_char_forward] at h
    split at h
    · cases hmap : removeAtByte f.value f.cursor with
      | none => rw [hmap] at h; simp at h
      | some v =>
        rw [hmap] at h
        simp only [Option.map_some', Option.some.injEq] at h
        subst h
        exact removeAtByte_le hmap
    · simp only [Option.some.injEq] at h
      subst h
      exact hf
  | left =>
    simp only [applyEditOp, InputField.move_cursor_left, Option.some.injEq] at h
    subst h
    split
    · simp only; omega
    · exact hf
  | right =>
    simp only [applyEditOp, InputField.move_cursor_right, Option.some.injEq] at h
    subst h
    split
    · rename_i hlt; simp only; omega
    · exact hf
  | toStart =>
    simp only [applyEditOp, InputField.move_cursor_start, Option.some.injEq] at h
    subst h
    exact Nat.zero_le _
  | toEnd =>
    simp only [applyEditOp, InputField.move_cursor_end, Option.some.injEq] at h
    subst h
    exact Nat.le_refl _
  | clearAll =>
    simp only [applyEditOp, InputField.clear, Option.some.injEq] at h
    subst h
    exact Nat.le_refl _
  | setVal v =>
    simp only [applyEditOp, InputField.set_value, Option.some.injEq] at h
    subst h
    exact Nat.le_refl _
  | withVal v =>
    simp only [applyEditOp, InputField.with_value, Option.some.injEq] at h
    subst h
    exact Nat.le_refl _

theorem runEditOps_none (ops : List EditOp) : runEditOps none ops = none := by
  induction ops with
  | nil => rfl
  | cons op ops ih => simpa [runEditOps] using ih

theorem runEditOps_cons (f : InputField) (op : EditOp) (ops : List EditOp) :
    runEditOps (some f) (op :: ops) = runEditOps (applyEditOp f op) ops := by
  simp [runEditOps]

/-- C1 (amended): for every sequence of `insert_char`, `delete_char`,
`delete_char_forward`, cursor-movement, `clear`, `set_value` and
`with_value` operations on an `InputField` whose cursor is within its
buffer, every operation that completes without a panic leaves
`0 ≤ cursor ≤ byte_length(value)`.  The bound holds in byte units (Rust
`String::len`), not in character units: the cursor is a byte offset. -/
theorem input_field_cursor_byte_invariant (f g : InputField) (ops : List EditOp)
    (hf : f.cursor ≤ strBytes f.value) (h : runEditOps (some f) ops = some g) :
    g.cursor ≤ strBytes g.value := by
  induction ops generalizing f with
  | nil =>
    simp only [runEditOps, List.foldl_nil, Option.some.injEq] at h
    subst h
    exact hf
  | cons op ops ih =>
    rw [runEditOps_cons] at h
    cases hop : applyEditOp f op with
    | none => rw [hop, runEditOps_none] at h; simp at h
    | some f' =>
      rw [hop] at h
      exact ih f' (applyEditOp_cursor_le op hf hop) h

/-- C1 witness: a concrete editor run through insert, set_value and
backspace keeps the byte-cursor bound. -/
theorem input_field_cursor_byte_invariant_witness :
    (InputField.new "Name").cursor ≤ strBytes (InputField.new "Name").value ∧
    (InputField.mk "Name" ['a'] 1 false "").cursor ≤
      strBytes (InputField.mk "Name" ['a'] 1 false "").value :=
  ⟨by decide,
    input_field_cursor_byte_invariant (InputField.new "Name")
      (InputField.mk "Name" ['a'] 1 false "")
      [EditOp.insert 'a', EditOp.setVal "ab".toList, EditOp.deleteBack]
      (by decide) (by decide)⟩

/-- C1 counterexample: the claim as stated measures the cursor in
character units, but `set_value` puts the cursor at the byte length of the
buffer: after setting a one-character, two-byte value the cursor is 2
while the character length is 1, so `cursor ≤ character_length(value)`
fails. -/
theorem input_field_char_cursor_cx :
    ¬ (((InputField.new "Name").set_value ['é']).cursor ≤
        ((InputField.new "Name").set_value ['é']).value.length) := by decide

/-! ### Navigation index lemmas -/

theorem newSetFocus_cf (v : NewMeadView) (b : Bool) :
    (v.set_field_focus b).current_field = v.current_field := by
  unfold NewMeadView.set_field_focus
  split <;> rfl

theorem new_next_field_cf (v : NewMeadView) :
    v.next_field.current_field = (v.current_field + 1) % 11 := by
  simp [NewMeadView.next_field, newSetFocus_cf, NewMeadField.count]

theorem new_prev_field_cf (v : NewMeadView) :
    v.previous_field.current_field =
      if v.current_field = 0 then 10 else v.current_field - 1 := by
  simp only [NewMeadView.previous_field, NewMeadField.count, newSetFocus_cf]
  split <;> simp [newSetFocus_cf]

theorem detSetFocus_cf (v : MeadDetailView) (b : Bool) :
    (v.set_field_focus b).current_field = v.current_field := by
  unfold MeadDetailView.set_field_focus
  split <;> rfl

theorem det_next_field_cf (v : MeadDetailView) (hl : v.show_log_input = false)
    (hi : v.show_ingredient_input = false) :
    v.next_field.current_field = (v.current_field + 1) % 5 := by
  simp [MeadDetailView.next_field, hl, hi, detSetFocus_cf, DetailField.count]

theorem det_prev_field_cf (v : MeadDetailView) (hl : v.show_log_input = false)
    (hi : v.show_ingredient_input = false) :
    v.previous_field.current_field =
      if v.current_field = 0 then 4 else v.current_field - 1 := by
  simp only [MeadDetailView.previous_field, hl, hi, Bool.false_eq_true, if_false,
    DetailField.count, detSetFocus_cf]
  split <;> simp [detSetFocus_cf]

theorem det_next_field_ing (v : MeadDetailView) (hl : v.show_log_input = false)
    (hi : v.show_ingredient_input = true) :
    v.next_field.ingredient_field = (v.ingredient_field + 1) % 4 := by
  simp [MeadDetailView.next_field, hl, hi, MeadDetailView.update_ingredient_focus]

theorem det_prev_field_ing (v : MeadDetailView) (hl : v.show_log_input = false)
    (hi : v.show_ingredient_input = true) :
    v.previous_field.ingredient_field =
      if v.ingredient_field = 0 then 3 else v.ingredient_field - 1 := by
  simp only [MeadDetailView.previous_field, hl, hi, Bool.false_eq_true, if_false, if_true]
  split <;> simp [MeadDetailView.update_ingredient_focus]

theorem menu_next_sel (m : MainMenuView) :
    m.next.selected = (m.selected + 1) % m.options.length := rfl

theorem menu_prev_sel (m : MainMenuView) :
    m.previous.selected =
      if m.selected = 0 then m.options.length - 1 else m.selected - 1 := by
  unfold MainMenuView.previous
  split <;> rfl

/-- C5: every screen's field list wraps around: `next` from the last index
lands on 0 and `previous` from 0 lands on the last index, the list lengths
being Menu 2 (`options`), new-record form 11 (`NewMeadField::count`),
detail form 5 (`DetailField::count`) and ingredient sub-form 4; at every
other in-range index `next`/`previous` move by exactly one. -/
theorem field_wraparound :
    (∀ m : MainMenuView, m.options.length = 2 →
      (m.selected = 1 → m.next.selected = 0) ∧
      (m.selected = 0 → m.previous.selected = 1) ∧
      (m.selected = 0 → m.next.selected = 1) ∧
      (m.selected = 1 → m.previous.selected = 0)) ∧
    (∀ n : NewMeadView,
      (n.current_field = 10 → n.next_field.current_field = 0) ∧
      (n.current_field < 10 → n.next_field.current_field = n.current_field + 1) ∧
      (n.current_field = 0 → n.previous_field.current_field = 10) ∧
      (0 < n.current_field → n.current_field < 11 →
        n.previous_field.current_field = n.current_field - 1)) ∧
    (∀ d : MeadDetailView, d.show_log_input = false → d.show_ingredient_input = false →
      (d.current_field = 4 → d.next_field.current_field = 0) ∧
      (d.current_field < 4 → d.next_field.current_field = d.current_field + 1) ∧
      (d.current_field = 0 → d.previous_field.current_field = 4) ∧
      (0 < d.current_field → d.current_field < 5 →
        d.previous_field.current_field = d.current_field - 1)) ∧
    (∀ d : MeadDetailView, d.show_log_input = false → d.show_ingredient_input = true →
      (d.ingredient_field = 3 → d.next_field.ingredient_field = 0) ∧
      (d.ingredient_field < 3 → d.next_field.ingredient_field = d.ingredient_field + 1) ∧
      (d.ingredient_field = 0 → d.previous_field.ingredient_field = 3) ∧
      (0 < d.ingredient_field → d.ingredient_field < 4 →
        d.previous_field.ingredient_field = d.ingredient_field - 1)) := by
  refine ⟨fun m hm => ⟨fun h => ?_, fun h => ?_, fun h => ?_, fun h => ?_⟩,
    fun n => ⟨fun h => ?_, fun h => ?_, fun h => ?_, fun h1 h2 => ?_⟩,
    fun d hl hi => ⟨fun h => ?_, fun h => ?_, fun h => ?_, fun h1 h2 => ?_⟩,
    fun d hl hi => ⟨fun h => ?_, fun h => ?_, fun h => ?_, fun h1 h2 => ?_⟩⟩
  · rw [menu_next_sel, h, hm]
  · rw [menu_prev_sel, if_pos h, hm]
  · rw [menu_next_sel, h, hm]
  · rw [menu_prev_sel, if_neg (by omega), h]
  · rw [new_next_field_cf, h]
  · rw [new_next_field_cf, Nat.mod_eq_of_lt (by omega)]
  · rw [new_prev_field_cf, if_pos h]
  · rw [new_prev_field_cf, if_neg (by omega)]
  · rw [det_next_field_cf d hl hi, h]
  · rw [det_next_field_cf d hl hi, Nat.mod_eq_of_lt (by omega)]
  · rw [det_prev_field_cf d hl hi, if_pos h]
  · rw [det_prev_field_cf d hl hi, if_neg (by omega)]
  · rw [det_next_field_ing d hl hi, h]
  · rw [det_next_field_ing d hl hi, Nat.mod_eq_of_lt (by omega)]
  · rw [det_prev_field_ing d hl hi, if_pos h]
  · rw [det_prev_field_ing d hl hi, if_neg (by omega)]

/-- C5 witness: wraparound at the concrete fresh screens. -/
theorem field_wraparound_witness :
    MainMenuView.new.options.length = 2 ∧ MainMenuView.new.selected = 0 ∧
    MainMenuView.new.previous.selected = 1 ∧
    (NewMeadView.new "2026-01-01".toList).current_field = 0 ∧
    (NewMeadView.new "2026-01-01".toList).previous_field.current_field = 10 ∧
    MeadDetailView.new.show_log_input = false ∧
    MeadDetailView.new.show_ingredient_input = false ∧
    MeadDetailView.new.current_field = 0 ∧
    MeadDetailView.new.previous_field.current_field = 4 :=
  ⟨by decide, by decide,
    (field_wraparound.1 MainMenuView.new (by decide)).2.1 (by decide),
    by decide,
    (field_wraparound.2.1 (NewMeadView.new "2026-01-01".toList)).2.2.1 (by decide),
    by decide, by decide, by decide,
    (field_wraparound.2.2.1 MeadDetailView.new (by decide) (by decide)).2.2.1 (by decide)⟩

/-- C6: cycling the status forward six times (`MeadStatus::next`) returns
the original status, and cycling the ingredient category forward five
times (`MeadDetailView::move_cursor_right` on the category slot) returns
the original category. -/
theorem enum_cycle_closure :
    (∀ s : MeadStatus,
      MeadStatus.next (MeadStatus.next (MeadStatus.next
        (MeadStatus.next (MeadStatus.next (MeadStatus.next s))))) = s) ∧
    (∀ d : MeadDetailView, d.show_ingredient_input = true → d.ingredient_field = 3 →
      (d.move_cursor_right.move_cursor_right.move_cursor_right.move_cursor_right.move_cursor_right).selected_ingredient_type =
        d.selected_ingredient_type) := by
  constructor
  · intro s; cases s <;> rfl
  · intro d h1 h2
    rcases d with ⟨m, ing, logs, nr, cf, ed, ni, cgi, yai, noti, cs, li, sl, ini, iai, iui,
      sit, si, ifld⟩
    simp only at h1 h2
    subst h1
    subst h2
    cases sit <;> rfl

/-- C6 witness: the cycles at concrete starting values. -/
theorem enum_cycle_closure_witness :
    detailCatFix.show_ingredient_input = true ∧ detailCatFix.ingredient_field = 3 ∧
    (detailCatFix.move_cursor_right.move_cursor_right.move_cursor_right.move_cursor_right.move_cursor_right).selected_ingredient_type =
      detailCatFix.selected_ingredient_type :=
  ⟨by decide, by decide, enum_cycle_closure.2 detailCatFix (by decide) (by decide)⟩

/-- C8: the outcome of a keystroke is independent of the transient status
message present when the key arrives — `App::handle_key_event` clears the
message before routing, and no view handler reads it, so a message never
survives a keystroke except when that keystroke's own handler installs a
new one. -/
theorem status_message_cleared_on_key (env : Env) (app : App) (key : KeyEvent)
    (m : Option (List Char)) :
    App.handle_key_event env { app with status_message := m } key =
      App.handle_key_event env app key := rfl

/-! ### Focus-exclusivity lemmas -/

theorem new_focus_next (v : NewMeadView) (hv : v.focusInv) (hvc : v.current_field < 11) :
    v.next_field.focusCount =
      if NewMeadField.from_index v.next_field.current_field = .Submit then 0 else 1 := by
  obtain ⟨nm, sd, ht, ha, ys, ta, sg, vg, yr, no, cf, ed⟩ := v
  obtain ⟨h0, h1, h2, h3, h4, h5, h6, h7, h8, h9⟩ := hv
  simp only [NewMeadView.current_field] at hvc
  interval_cases cf <;>
    simp_all [NewMeadView.next_field, NewMeadView.set_field_focus, NewMeadField.from_index,
      NewMeadField.count, NewMeadView.focusCount, InputField.set_focused, boolNat]

theorem new_focus_prev (v : NewMeadView) (hv : v.focusInv) (hvc : v.current_field < 11) :
    v.previous_field.focusCount =
      if NewMeadField.from_index v.previous_field.current_field = .Submit then 0 else 1 := by
  obtain ⟨nm, sd, ht, ha, ys, ta, sg, vg, yr, no, cf, ed⟩ := v
  obtain ⟨h0, h1, h2, h3, h4, h5, h6, h7, h8, h9⟩ := hv
  simp only [NewMeadView.current_field] at hvc
  interval_cases cf <;>
    simp_all [NewMeadView.previous_field, NewMeadView.set_field_focus, NewMeadField.from_index,
      NewMeadField.count, NewMeadView.focusCount, InputField.set_focused, boolNat]

theorem det_focus_next (d : MeadDetailView) (hd : d.focusInv) (hdc : d.current_field < 5)
    (hl : d.show_log_input = false) (hi : d.show_ingredient_input = false) :
    d.next_field.focusCount =
      if DetailField.from_index d.next_field.current_field = .Status then 0 else 1 := by
  obtain ⟨m, ing, logs, nr, cf, ed, ni, cgi, yai, noti, cs, li, sl, ini, iai, iui, sit, si,
    ifld⟩ := d
  obtain ⟨g0, g2, g3, g4⟩ := hd
  simp only [MeadDetailView.current_field] at hdc
  simp only [MeadDetailView.show_log_input, MeadDetailView.show_ingredient_input] at hl hi
  subst hl
  subst hi
  interval_cases cf <;>
    simp_all [MeadDetailView.next_field, MeadDetailView.set_field_focus, DetailField.from_index,
      DetailField.count, MeadDetailView.focusCount, InputField.set_focused, boolNat]

theorem det_focus_prev (d : MeadDetailView) (hd : d.focusInv) (hdc : d.current_field < 5)
    (hl : d.show_log_input = false) (hi : d.show_ingredient_input = false) :
    d.previous_field.focusCount =
      if DetailField.from_index d.previous_field.current_field = .Status then 0 else 1 := by
  obtain ⟨m, ing, logs, nr, cf, ed, ni, cgi, yai, noti, cs, li, sl, ini, iai, iui, sit, si,
    ifld⟩ := d
  obtain ⟨g0, g2, g3, g4⟩ := hd
  simp only [MeadDetailView.current_field] at hdc
  simp only [MeadDetailView.show_log_input, MeadDetailView.show_ingredient_input] at hl hi
  subst hl
  subst hi
  interval_cases cf <;>
    simp_all [MeadDetailView.previous_field, MeadDetailView.set_field_focus,
      DetailField.from_index, DetailField.count, MeadDetailView.focusCount,
      InputField.set_focused, boolNat]

/-- C2 (amended): after `next_field`/`previous_field` on the new-record
form, and on the detail form with both sub-forms closed, starting from a
state in which any focused editor is the one at the current slot, the
number of focused text editors is exactly one when the landing slot is
text-editor-backed, and zero — not one — when the landing slot is the
Submit sentinel or the Status slot. -/
theorem nav_focus_exclusivity (v : NewMeadView) (d : MeadDetailView)
    (hv : v.focusInv) (hvc : v.current_field < 11)
    (hd : d.focusInv) (hdc : d.current_field < 5)
    (hl : d.show_log_input = false) (hi : d.show_ingredient_input = false) :
    (v.next_field.focusCount =
      if NewMeadField.from_index v.next_field.current_field = .Submit then 0 else 1) ∧
    (v.previous_field.focusCount =
      if NewMeadField.from_index v.previous_field.current_field = .Submit then 0 else 1) ∧
    (d.next_field.focusCount =
      if DetailField.from_index d.next_field.current_field = .Status then 0 else 1) ∧
    (d.previous_field.focusCount =
      if DetailField.from_index d.previous_field.current_field = .Status then 0 else 1) :=
  ⟨new_focus_next v hv hvc, new_focus_prev v hv hvc,
    det_focus_next d hd hdc hl hi, det_focus_prev d hd hdc hl hi⟩

/-- C2 witness: the amended statement at the concrete fresh screens. -/
theorem nav_focus_exclusivity_witness :
    (NewMeadView.new "2026-01-01".toList).focusInv ∧
    (NewMeadView.new "2026-01-01".toList).current_field < 11 ∧
    MeadDetailView.new.focusInv ∧ MeadDetailView.new.current_field < 5 ∧
    MeadDetailView.new.show_log_input = false ∧
    MeadDetailView.new.show_ingredient_input = false ∧
    (NewMeadView.new "2026-01-01".toList).next_field.focusCount =
      (if NewMeadField.from_index
          (NewMeadView.new "2026-01-01".toList).next_field.current_field = .Submit
        then 0 else 1) :=
  ⟨by unfold NewMeadView.focusInv; decide, by decide,
    by unfold MeadDetailView.focusInv; decide, by decide, by decide, by decide,
    (nav_focus_exclusivity (NewMeadView.new "2026-01-01".toList) MeadDetailView.new
      (by unfold NewMeadView.focusInv; decide) (by decide)
      (by unfold MeadDetailView.focusInv; decide) (by decide) (by decide) (by decide)).1⟩

/-- C2 counterexample: one navigation step on a fresh detail screen lands
on the Status slot and leaves zero text editors focused, refuting the
claim that exactly one text-editor-backed field is focused after any
navigation operation. -/
theorem nav_focus_cx : ¬ (MeadDetailView.new.next_field.focusCount = 1) := by decide

/-- C4 (amended): on the ingredient sub-form's category slot, Left/Right
cycle the category one step (left backward, right forward, the two maps
being mutually inverse on the fixed order) and change nothing but the
selected category — no text buffer is touched; on the detail screen's
status slot, Left/Right are no-ops (the status enum is cycled by
activation via `toggle_edit`, not by horizontal movement), again without
invoking any text-editor operation. -/
theorem enum_slot_horizontal (d : MeadDetailView) :
    (d.show_ingredient_input = true → d.ingredient_field = 3 →
      d.move_cursor_left =
        { d with selected_ingredient_type :=
            ingredientTypeBackward d.selected_ingredient_type } ∧
      d.move_cursor_right =
        { d with selected_ingredient_type :=
            ingredientTypeForward d.selected_ingredient_type }) ∧
    (∀ t : IngredientType, ingredientTypeBackward (ingredientTypeForward t) = t ∧
      ingredientTypeForward (ingredientTypeBackward t) = t) ∧
    (d.show_log_input = false → d.show_ingredient_input = false →
      DetailField.from_index d.current_field = .Status →
      d.move_cursor_left = d ∧ d.move_cursor_right = d) := by
  refine ⟨fun h1 h2 => ⟨?_, ?_⟩, fun t => by cases t <;> exact ⟨rfl, rfl⟩,
    fun hl hi hs => ⟨?_, ?_⟩⟩
  · simp [MeadDetailView.move_cursor_left, h1, h2]
  · simp [MeadDetailView.move_cursor_right, h1, h2]
  · simp [MeadDetailView.move_cursor_left, MeadDetailView.mapCurrent, hl, hi, hs]
  · simp [MeadDetailView.move_cursor_right, MeadDetailView.mapCurrent, hl, hi, hs]

/-- C4 witness: the amended statement at a concrete sub-form state and at
the concrete status-slot state. -/
theorem enum_slot_horizontal_witness :
    detailCatFix.show_ingredient_input = true ∧ detailCatFix.ingredient_field = 3 ∧
    detailCatFix.move_cursor_right =
      { detailCatFix with selected_ingredient_type :=
          ingredientTypeForward detailCatFix.selected_ingredient_type } ∧
    appStatusFix.mead_detail.show_log_input = false ∧
    appStatusFix.mead_detail.show_ingredient_input = false ∧
    DetailField.from_index appStatusFix.mead_detail.current_field = .Status ∧
    appStatusFix.mead_detail.move_cursor_left = appStatusFix.mead_detail :=
  ⟨rfl, rfl, ((enum_slot_horizontal detailCatFix).1 rfl rfl).2, rfl, rfl, rfl,
    ((enum_slot_horizontal appStatusFix.mead_detail).2.2 rfl rfl rfl).1⟩

/-- C4 counterexample: with the detail screen browsing on the status slot,
the Left key leaves the application unchanged apart from the cleared
status message — in particular the status stays `Planning` instead of
moving one step backward (to `Finished`) as the claim requires, so
horizontal movement does not cycle the status slot's enum. -/
theorem status_slot_left_cx :
    (App.handle_key_event envFix appStatusFix ⟨.Left, false⟩).map
        (fun a => a.mead_detail.current_status) = some MeadStatus.Planning ∧
    appStatusFix.mead_detail.current_status = MeadStatus.Planning ∧
    MeadStatus.Planning.prev ≠ MeadStatus.Planning ∧
    MeadStatus.Planning.next ≠ MeadStatus.Planning := by
  refine ⟨?_, rfl, by decide, by decide⟩
  decide

/-- C9 (amended): in the detail view with the Status slot current, no
sub-form open and editing off, Backspace or any printable character key
other than the sub-form shortcuts `l`, `i` and `s` cycles the status one
step forward via `toggle_edit`, does not enter edit mode, and changes
nothing else — no text buffer is modified.  The keys `l`, `i` and `s` are
intercepted earlier by the sub-form / save shortcuts. -/
theorem status_slot_activation (env : Env) (app : App) (id : Int) (c : Char) (sh : Bool)
    (hview : app.current_view = .MeadDetail id)
    (hcf : app.mead_detail.current_field = 1)
    (hed : app.mead_detail.editing = false)
    (hl : app.mead_detail.show_log_input = false)
    (hi : app.mead_detail.show_ingredient_input = false)
    (hcl : c ≠ 'l') (hci : c ≠ 'i') (hcs : c ≠ 's') :
    App.handle_key_event env app ⟨.Char c, sh⟩ =
      some { app with
        status_message := none
        mead_detail := { app.mead_detail with
          current_status := app.mead_detail.current_status.next } } ∧
    App.handle_key_event env app ⟨.Backspace, sh⟩ =
      some { app with
        status_message := none
        mead_detail := { app.mead_detail with
          current_status := app.mead_detail.current_status.next } } := by
  constructor <;>
    simp [App.handle_key_event, App.handle_mead_detail_key, MeadDetailView.toggle_edit,
      MeadDetailView.is_editing, DetailField.from_index, hview, hcf, hed, hl, hi,
      hcl, hci, hcs]

/-- C9 witness: pressing `x` on the concrete status-slot state cycles the
status forward and nothing else. -/
theorem status_slot_activation_witness :
    appStatusFix.current_view = .MeadDetail 7 ∧
    appStatusFix.mead_detail.current_field = 1 ∧
    appStatusFix.mead_detail.editing = false ∧
    appStatusFix.mead_detail.show_log_input = false ∧
    appStatusFix.mead_detail.show_ingredient_input = false ∧
    App.handle_key_event envFix appStatusFix ⟨.Char 'x', false⟩ =
      some { appStatusFix with
        status_message := none
        mead_detail := { appStatusFix.mead_detail with
          current_status := appStatusFix.mead_detail.current_status.next } } :=
  ⟨rfl, rfl, rfl, rfl, rfl,
    (status_slot_activation envFix appStatusFix 7 'x' false rfl rfl rfl rfl rfl
      (by decide) (by decide) (by decide)).1⟩

/-- C9 counterexample: pressing the printable character `l` in the same
state does not cycle the status — it opens the log sub-form — refuting
the claim for "any printable character key". -/
theorem detail_char_l_cx :
    (App.handle_key_event envFix appStatusFix ⟨.Char 'l', false⟩).map
        (fun a => (a.mead_detail.current_status, a.mead_detail.show_log_input)) =
      some (MeadStatus.Planning, true) ∧
    MeadStatus.Planning.next ≠ MeadStatus.Planning := by
  exact ⟨by decide, by decide⟩

/-- C10: cancelling an open sub-form on the detail screen with Escape
(editing off) clears exactly the two sub-form visibility flags: the
resulting detail state equals the old one with `show_log_input` and
`show_ingredient_input` set to false, so the log-entry buffer, the three
ingredient buffers, the selected category, the sub-form field index, all
focus flags, the parent's field index and editing flag, and the record
snapshot are all unchanged. -/
theorem subform_cancel_frame (env : Env) (app : App) (id : Int) (sh : Bool)
    (hview : app.current_view = .MeadDetail id)
    (hed : app.mead_detail.editing = false)
    (hsub : app.mead_detail.show_log_input = true ∨
      app.mead_detail.show_ingredient_input = true) :
    App.handle_key_event env app ⟨.Esc, sh⟩ =
      some { app with
        status_message := none
        mead_detail := { app.mead_detail with
          show_log_input := false, show_ingredient_input := false } } := by
  rcases hsub with h | h <;>
    simp [App.handle_key_event, App.handle_mead_detail_key, MeadDetailView.is_editing,
      hview, hed, h]

/-- C10 witness: Escape on a concrete open log sub-form with typed text
closes only the sub-form flags; the typed text survives. -/
theorem subform_cancel_frame_witness :
    appLogFix.current_view = .MeadDetail 7 ∧
    appLogFix.mead_detail.editing = false ∧
    appLogFix.mead_detail.show_log_input = true ∧
    App.handle_key_event envFix appLogFix ⟨.Esc, false⟩ =
      some { appLogFix with
        status_message := none
        mead_detail := { appLogFix.mead_detail with
          show_log_input := false, show_ingredient_input := false } } :=
  ⟨rfl, rfl, rfl,
    subform_cancel_frame envFix appLogFix 7 false rfl rfl (Or.inl rfl)⟩

/-- C3 (amended): transitions into the List and Detail screens set that
screen's `needs_refresh` flag, and entering the new-record form from the
menu installs a wholly fresh form state (buffers, field index and editing
flag reset); but no transition clears the target screen's transient edit
state — in particular, entering the Detail screen from the List leaves
the detail screen's field index, editing flag and sub-form flags exactly
as a previous visit left them, and returning to the Menu or List preserves
their selection state, as the record-update equalities below show. -/
theorem view_transition_effects (env : Env) (app : App) :
    (app.current_view = .MainMenu → app.main_menu.selected = 0 → ∀ sh : Bool,
      App.handle_key_event env app ⟨.Enter, sh⟩ =
        some { app with
          status_message := none
          current_view := .MeadList
          mead_list := { app.mead_list with needs_refresh := true } }) ∧
    (app.current_view = .MainMenu → app.main_menu.selected = 1 → ∀ sh : Bool,
      App.handle_key_event env app ⟨.Enter, sh⟩ =
        some { app with
          status_message := none
          current_view := .NewMead
          new_mead := NewMeadView.new env.now.ymd }) ∧
    (app.current_view = .MeadList → ∀ m : Mead, app.mead_list.get_selected = some m →
      ∀ sh : Bool,
      App.handle_key_event env app ⟨.Enter, sh⟩ =
        some { app with
          status_message := none
          current_view := .MeadDetail m.id
          mead_detail := { app.mead_detail with needs_refresh := true } }) ∧
    (app.current_view = .MeadList → ∀ sh : Bool,
      App.handle_key_event env app ⟨.Esc, sh⟩ =
        some { app with status_message := none, current_view := .MainMenu }) ∧
    (app.current_view = .NewMead → app.new_mead.editing = false → ∀ sh : Bool,
      App.handle_key_event env app ⟨.Esc, sh⟩ =
        some { app with status_message := none, current_view := .MainMenu }) ∧
    (∀ id : Int, app.current_view = .MeadDetail id → app.mead_detail.editing = false →
      app.mead_detail.show_log_input = false → app.mead_detail.show_ingredient_input = false →
      ∀ sh : Bool,
      App.handle_key_event env app ⟨.Esc, sh⟩ =
        some { app with
          status_message := none
          current_view := .MeadList
          mead_list := { app.mead_list with needs_refresh := true } }) := by
  refine ⟨fun hv hs sh => ?_, fun hv hs sh => ?_, fun hv m hm sh => ?_, fun hv sh => ?_,
    fun hv he sh => ?_, fun id hv he hl hi sh => ?_⟩
  · simp [App.handle_key_event, App.handle_main_menu_key, hv, hs]
  · simp [App.handle_key_event, App.handle_main_menu_key, hv, hs]
  · simp [App.handle_key_event, App.handle_mead_list_key, hv, hm]
  · simp [App.handle_key_event, App.handle_mead_list_key, hv]
  · simp [App.handle_key_event, App.handle_new_mead_key, NewMeadView.is_editing, hv, he]
  · simp [App.handle_key_event, App.handle_mead_detail_key, MeadDetailView.is_editing,
      hv, he, hl, hi]

/-- C3 witness: the List → Detail transition at the concrete list state
sets the detail refresh flag and changes nothing else of the detail
state. -/
theorem view_transition_effects_witness :
    appListFix.current_view = .MeadList ∧
    appListFix.mead_list.get_selected = some meadFix ∧
    App.handle_key_event envFix appListFix ⟨.Enter, false⟩ =
      some { appListFix with
        status_message := none
        current_view := .MeadDetail meadFix.id
        mead_detail := { appListFix.mead_detail with needs_refresh := true } } :=
  ⟨rfl, by decide,
    (view_transition_effects envFix appListFix).2.2.1 rfl meadFix (by decide) false⟩

/-- C3 counterexample: entering the Detail screen from the List does not
reset the detail screen's transient edit state — a leftover field index 2
from a previous visit survives the transition, where the claim requires it
to be reset (to 0). -/
theorem detail_entry_no_reset_cx :
    (App.handle_key_event envFix appListFix ⟨.Enter, false⟩).map
        (fun a => (a.current_view, a.mead_detail.current_field)) =
      some (View.MeadDetail 7, 2) ∧ (2 : Nat) ≠ 0 := by
  exact ⟨by decide, by decide⟩

/-! ### Float-grammar equivalence -/

theorem takeWhile_append_of {p : Char → Bool} {d r : List Char}
    (hd : ∀ c ∈ d, p c = true) (hr : ∀ c, r.head? = some c → p c = false) :
    (d ++ r).takeWhile p = d ∧ (d ++ r).dropWhile p = r := by
  induction d with
  | nil =>
    cases r with
    | nil => simp
    | cons x t =>
      have hx := hr x rfl
      simp [List.takeWhile_cons, List.dropWhile_cons, hx]
  | cons x d ih =>
    have hx := hd x (List.mem_cons_self x d)
    have h2 := ih (fun c hc => hd c (List.mem_cons_of_mem _ hc))
    simp [List.takeWhile_cons, List.dropWhile_cons, hx, h2.1, h2.2]

theorem stripSign_digits {d : List Char} (hdne : d ≠ [])
    (hdig : ∀ c ∈ d, c.isDigit = true) : stripSign d = d := by
  cases d with
  | nil => rfl
  | cons y t =>
    have hy := hdig y (List.mem_cons_self y t)
    have h1 : y ≠ '+' := fun hh => by subst hh; exact absurd hy (by decide)
    have h2 : y ≠ '-' := fun hh => by subst hh; exact absurd hy (by decide)
    simp [stripSign, h1, h2]

theorem expTail_iff (r : List Char) : ExpStr r ↔ expTail r = true := by
  cases r with
  | nil => simp [expTail, ExpStr]
  | cons c rest =>
    constructor
    · rintro (h | ⟨c', sg, d, heq, hc', hsg, hdne, hdig⟩)
      · simp at h
      · injection heq with h1 h2
        subst h1
        subst h2
        simp only [expTail, Bool.and_eq_true, Bool.or_eq_true, decide_eq_true_eq,
          Bool.not_eq_true', List.all_eq_true]
        have hstrip : stripSign (sg ++ d) = d := by
          rcases hsg with rfl | rfl | rfl
          · simpa using stripSign_digits hdne hdig
          · rfl
          · rfl
        rw [hstrip]
        refine ⟨hc', ?_, hdig⟩
        cases d with
        | nil => exact absurd rfl hdne
        | cons z zs => simp
    · intro h
      simp only [expTail, Bool.and_eq_true, Bool.or_eq_true, decide_eq_true_eq,
        Bool.not_eq_true', List.all_eq_true] at h
      obtain ⟨hce, hne, hdig⟩ := h
      refine Or.inr ?_
      cases rest with
      | nil => simp [stripSign] at hne
      | cons x t =>
        by_cases hx : x = '+' ∨ x = '-'
        · have hstrip : stripSign (x :: t) = t := by
            rcases hx with rfl | rfl <;> rfl
          rw [hstrip] at hne hdig
          refine ⟨c, [x], t, by simp, hce, ?_, ?_, hdig⟩
          · rcases hx with rfl | rfl
            · exact Or.inr (Or.inl rfl)
            · exact Or.inr (Or.inr rfl)
          · intro h0
            subst h0
            simp at hne
        · have h1 : x ≠ '+' := fun hh => hx (Or.inl hh)
          have h2 : x ≠ '-' := fun hh => hx (Or.inr hh)
          have hstrip : stripSign (x :: t) = x :: t := by simp [stripSign, h1, h2]
          rw [hstrip] at hne hdig
          exact ⟨c, [], x :: t, by simp, hce, Or.inl rfl, by simp, hdig⟩

theorem expStr_head_not_digit {e : List Char} (hexp : ExpStr e) :
    ∀ c, e.head? = some c → Char.isDigit c = false := by
  rcases hexp with rfl | ⟨c', sg, d, rfl, hc', _, _⟩
  · intro c hc
    simp at hc
  · intro c hc
    simp only [List.head?_cons, Option.some.injEq] at hc
    subst hc
    rcases hc' with rfl | rfl <;> decide

theorem numberStr_head {b : List Char} (h : NumberStr b) :
    ∃ y t, b = y :: t ∧ (y.isDigit = true ∨ y = '.') := by
  rcases h with ⟨d1, d2, e, heq, hd1, _, _, _⟩ | ⟨d1, e, heq, ⟨hdne, hdig⟩, _⟩
  · cases d1 with
    | nil => exact ⟨'.', d2 ++ e, by simpa using heq, Or.inr rfl⟩
    | cons y t1 =>
      exact ⟨y, t1 ++ '.' :: (d2 ++ e), by simpa using heq,
        Or.inl (hd1 y (List.mem_cons_self y t1))⟩
  · cases d1 with
    | nil => exact absurd rfl hdne
    | cons y t1 =>
      exact ⟨y, t1 ++ e, by simpa using heq, Or.inl (hdig y (List.mem_cons_self y t1))⟩

theorem numTail_iff (b : List Char) : numTail b = true ↔ NumberStr b := by
  constructor
  · intro h
    have hsplit := List.takeWhile_append_dropWhile Char.isDigit b
    cases hr : b.dropWhile Char.isDigit with
    | nil =>
      rw [hr, List.append_nil] at hsplit
      simp only [numTail, hr, Bool.not_eq_true'] at h
      refine Or.inr ⟨b.takeWhile Char.isDigit, [], by rw [List.append_nil, hsplit],
        ⟨?_, fun c hc => List.mem_takeWhile_imp hc⟩, Or.inl rfl⟩
      intro h0
      rw [h0] at h
      simp at h
    | cons x r2 =>
      by_cases hx : x = '.'
      · subst hx
        simp only [numTail, hr, if_pos, Bool.and_eq_true, Bool.or_eq_true,
          Bool.not_eq_true'] at h
        obtain ⟨hne, hexp⟩ := h
        have hsplit2 := List.takeWhile_append_dropWhile Char.isDigit r2
        refine Or.inl ⟨b.takeWhile Char.isDigit, r2.takeWhile Char.isDigit,
          r2.dropWhile Char.isDigit, ?_, fun c hc => List.mem_takeWhile_imp hc,
          fun c hc => List.mem_takeWhile_imp hc, ?_, (expTail_iff _).mpr hexp⟩
        · rw [hsplit2, ← hr, hsplit]
        · rcases hne with h0 | h0
          · refine Or.inl ?_
            intro h1
            rw [h1] at h0
            simp at h0
          · refine Or.inr ?_
            intro h1
            rw [h1] at h0
            simp at h0
      · simp only [numTail, hr, if_neg hx, Bool.and_eq_true, Bool.not_eq_true'] at h
        obtain ⟨hne, hexp⟩ := h
        refine Or.inr ⟨b.takeWhile Char.isDigit, x :: r2, by rw [← hr, hsplit],
          ⟨?_, fun c hc => List.mem_takeWhile_imp hc⟩, (expTail_iff _).mpr hexp⟩
        intro h0
        rw [h0] at hne
        simp at hne
  · intro h
    rcases h with ⟨d1, d2, e, heq, hd1, hd2, hne, hexp⟩ | ⟨d1, e, heq, ⟨hdne, hdig⟩, hexp⟩
    · have hehead := expStr_head_not_digit hexp
      have hmid : ∀ c, ('.' :: (d2 ++ e)).head? = some c → Char.isDigit c = false := by
        intro c hc
        simp only [List.head?_cons, Option.some.injEq] at hc
        subst hc
        decide
      have h1 := takeWhile_append_of hd1 hmid
      have h2 := takeWhile_append_of hd2 hehead
      subst heq
      simp only [numTail, h1.1, h1.2, if_pos, h2.1, h2.2, Bool.and_eq_true,
        Bool.or_eq_true, Bool.not_eq_true']
      refine ⟨?_, (expTail_iff _).mp hexp⟩
      rcases hne with h0 | h0
      · refine Or.inl ?_
        cases d1 with
        | nil => exact absurd rfl h0
        | cons z zs => simp
      · refine Or.inr ?_
        cases d2 with
        | nil => exact absurd rfl h0
        | cons z zs => simp
    · have hehead := expStr_head_not_digit hexp
      have h1 := takeWhile_append_of hdig hehead
      subst heq
      cases e with
      | nil =>
        have h1' := h1
        rw [List.append_nil] at h1'
        simp only [numTail, h1'.1, h1'.2, List.append_nil, Bool.not_eq_true']
        cases d1 with
        | nil => exact absurd rfl hdne
        | cons z zs => simp
      | cons x t =>
        have hxe : x = 'e' ∨ x = 'E' := by
          rcases hexp with h0 | ⟨c', sg, d, h0, hc', _, _⟩
          · simp at h0
          · injection h0 with ha hb
            subst ha
            exact hc'
        have hxd : ¬ x = '.' := by rcases hxe with rfl | rfl <;> decide
        simp only [numTail, h1.1, h1.2, if_neg hxd, Bool.and_eq_true, Bool.not_eq_true']
        refine ⟨?_, (expTail_iff _).mp hexp⟩
        cases d1 with
        | nil => exact absurd rfl hdne
        | cons z zs => simp

theorem bodyOk_iff (b : List Char) : bodyOk b = true ↔ BodyStr b := by
  simp [bodyOk, BodyStr, Bool.or_eq_true, decide_eq_true_eq, numTail_iff, or_assoc]

theorem floatTokenOk_eq_body (s : List Char) : floatTokenOk s = bodyOk (stripSign s) := rfl

theorem bodyStr_stripSign {b : List Char} (h : BodyStr b) : stripSign b = b := by
  cases b with
  | nil => rfl
  | cons y t =>
    have hy : y ≠ '+' ∧ y ≠ '-' := by
      rcases h with h | h | h | h
      · rw [show ("inf".toList) = 'i' :: "nf".toList from rfl, lowerChars, List.map_cons,
          List.cons.injEq] at h
        constructor <;> rintro rfl <;> exact absurd h.1 (by decide)
      · rw [show ("infinity".toList) = 'i' :: "nfinity".toList from rfl, lowerChars,
          List.map_cons, List.cons.injEq] at h
        constructor <;> rintro rfl <;> exact absurd h.1 (by decide)
      · rw [show ("nan".toList) = 'n' :: "an".toList from rfl, lowerChars, List.map_cons,
          List.cons.injEq] at h
        constructor <;> rintro rfl <;> exact absurd h.1 (by decide)
      · obtain ⟨z, t', heq, hz⟩ := numberStr_head h
        injection heq with ha hb
        subst ha
        rcases hz with hz | rfl
        · constructor <;> rintro rfl <;> exact absurd hz (by decide)
        · exact ⟨by decide, by decide⟩
    simp [stripSign, hy.1, hy.2]

theorem floatTokenOk_iff (s : List Char) : floatTokenOk s = true ↔ FloatLiteralStr s := by
  rw [floatTokenOk_eq_body]
  cases s with
  | nil =>
    constructor
    · intro h
      exact absurd h (by decide)
    · rintro ⟨sg, b, heq, hsg, hbody⟩
      obtain ⟨rfl, rfl⟩ := List.append_eq_nil.mp heq.symm
      exact absurd ((bodyOk_iff []).mpr hbody) (by decide)
  | cons y t =>
    by_cases hy : y = '+' ∨ y = '-'
    · have hstrip : stripSign (y :: t) = t := by
        rcases hy with rfl | rfl <;> rfl
      rw [hstrip]
      constructor
      · intro h
        refine ⟨[y], t, rfl, ?_, (bodyOk_iff t).mp h⟩
        rcases hy with rfl | rfl
        · exact Or.inr (Or.inl rfl)
        · exact Or.inr (Or.inr rfl)
      · rintro ⟨sg, b, heq, hsg, hbody⟩
        rcases hsg with rfl | rfl | rfl
        · rw [List.nil_append] at heq
          subst heq
          have h2 := bodyStr_stripSign hbody
          rw [hstrip] at h2
          exact absurd h2.symm (List.cons_ne_self y t)
        · injection heq with ha hb
          subst hb
          exact (bodyOk_iff t).mpr hbody
        · injection heq with ha hb
          subst hb
          exact (bodyOk_iff t).mpr hbody
    · have h1 : y ≠ '+' := fun hh => hy (Or.inl hh)
      have h2 : y ≠ '-' := fun hh => hy (Or.inr hh)
      have hstrip : stripSign (y :: t) = y :: t := by simp [stripSign, h1, h2]
      rw [hstrip]
      constructor
      · intro h
        exact ⟨[], y :: t, rfl, Or.inl rfl, (bodyOk_iff _).mp h⟩
      · rintro ⟨sg, b, heq, hsg, hbody⟩
        rcases hsg with rfl | rfl | rfl
        · rw [List.nil_append] at heq
          subst heq
          exact (bodyOk_iff _).mpr hbody
        · injection heq with ha hb
          exact absurd ha h1
        · injection heq with ha hb
          exact absurd ha h2

/-- C7: `build_mead` is a total function — submitting the new-record form
always produces a record — and each numeric field whose buffer fails
decimal parsing takes its documented fallback default (honey amount 0.0,
target ABV 14.0, starting gravity 1.100, volume 1.0, YAN required 0.0)
instead of producing an error; `get_f64` returns `none` exactly when the
buffer is not an (optionally signed) decimal number per the float grammar
`FloatLiteralStr`; and the derived current-gravity field always equals the
parsed-or-fallback starting-gravity value. -/
theorem numeric_fallback_defaults (v : NewMeadView) (now : DateTime) :
    (v.honey_amount.get_f64 = none → (v.build_mead now).honey_amount_lbs = f64lit "0.0") ∧
    (v.target_abv.get_f64 = none → (v.build_mead now).target_abv = f64lit "14.0") ∧
    (v.starting_gravity.get_f64 = none →
      (v.build_mead now).starting_gravity = f64lit "1.100") ∧
    (v.volume_gallons.get_f64 = none → (v.build_mead now).volume_gallons = f64lit "1.0") ∧
    (v.yan_required.get_f64 = none → (v.build_mead now).yan_required = f64lit "0.0") ∧
    (∀ f : InputField, f.get_f64 = none ↔ ¬ FloatLiteralStr f.value) ∧
    (v.build_mead now).current_gravity = (v.build_mead now).starting_gravity := by
  refine ⟨fun h => ?_, fun h => ?_, fun h => ?_, fun h => ?_, fun h => ?_, fun f => ?_, rfl⟩
  · simp [NewMeadView.build_mead, h]
  · simp [NewMeadView.build_mead, h]
  · simp [NewMeadView.build_mead, h]
  · simp [NewMeadView.build_mead, h]
  · simp [NewMeadView.build_mead, h]
  · constructor
    · intro hnone hfl
      rw [InputField.get_f64, if_pos ((floatTokenOk_iff f.value).mpr hfl)] at hnone
      simp at hnone
    · intro hnf
      rw [InputField.get_f64, if_neg (fun hok => hnf ((floatTokenOk_iff f.value).mp hok))]

/-- C7 witness: a concrete form with five unparsable numeric buffers
builds a record carrying exactly the documented defaults, with
current gravity equal to starting gravity. -/
theorem numeric_fallback_defaults_witness :
    newBadFix.honey_amount.get_f64 = none ∧
    newBadFix.target_abv.get_f64 = none ∧
    newBadFix.starting_gravity.get_f64 = none ∧
    newBadFix.volume_gallons.get_f64 = none ∧
    newBadFix.yan_required.get_f64 = none ∧
    (newBadFix.build_mead ⟨"2026-01-01".toList⟩).honey_amount_lbs = f64lit "0.0" ∧
    (newBadFix.build_mead ⟨"2026-01-01".toList⟩).target_abv = f64lit "14.0" ∧
    (newBadFix.build_mead ⟨"2026-01-01".toList⟩).starting_gravity = f64lit "1.100" ∧
    (newBadFix.build_mead ⟨"2026-01-01".toList⟩).volume_gallons = f64lit "1.0" ∧
    (newBadFix.build_mead ⟨"2026-01-01".toList⟩).yan_required = f64lit "0.0" ∧
    (newBadFix.build_mead ⟨"2026-01-01".toList⟩).current_gravity =
      (newBadFix.build_mead ⟨"2026-01-01".toList⟩).starting_gravity :=
  ⟨by decide, by decide, by decide, by decide, by decide,
    (numeric_fallback_defaults newBadFix ⟨"2026-01-01".toList⟩).1 (by decide),
    (numeric_fallback_defaults newBadFix ⟨"2026-01-01".toList⟩).2.1 (by decide),
    (numeric_fallback_defaults newBadFix ⟨"2026-01-01".toList⟩).2.2.1 (by decide),
    (numeric_fallback_defaults newBadFix ⟨"2026-01-01".toList⟩).2.2.2.1 (by decide),
    (numeric_fallback_defaults newBadFix ⟨"2026-01-01".toList⟩).2.2.2.2.1 (by decide),
    (numeric_fallback_defaults newBadFix ⟨"2026-01-01".toList⟩).2.2.2.2.2.2⟩
